import Mathlib

/-
Shallow embedding of the crawl engine of igoriokas/web-crawler
(src/src/crawler.py, src/src/state.py, src/src/utils.py,
src/src/word_counter.py, src/src/config.py), together with theorems
settling the specification claims about it.

Modelling conventions:
* The SQLite `pages`, `words` tables are lists of records / association
  lists; SQL `UPDATE ... WHERE url = ?` is a map over the rows.
* `now()` timestamps are abstract naturals passed explicitly.
* The HTTP layer (`requests`) and the HTML parser (BeautifulSoup) are
  external libraries: an HTTP attempt is an oracle `Nat → HttpOutcome`
  (one outcome per attempt ordinal) and a parsed page is the list of
  anchor hrefs; `urljoin` is an abstract resolution function.
* `random.random()` draws are explicit rational parameters in [0, 1).
-/

namespace WebCrawler

/-- Page lifecycle status, the SQL CHECK set of state.py
(`status IN ('queued', 'visited', 'failed')`, default `queued`). -/
inductive Status where
  | queued
  | visited
  | failed
deriving DecidableEq, Repr

/-- One row of the `pages` table of state.py `_init_tables`. -/
structure PageRow where
  sid : Nat
  url : String
  depth : Nat
  status : Status
  attempts : Int
  inserted_at : Nat
  last_attempt : Option Nat
  error : Option String
deriving DecidableEq, Repr

/-- The ledger state managed by `CrawlerState` of state.py: the `pages`
table, the `words` table (word PRIMARY KEY, count), and the rowid
counter behind `sid INTEGER PRIMARY KEY`.  The append-only `attempts`
table plays no role in the claims and is omitted. -/
structure LedgerState where
  pages : List PageRow
  words : List (String × Nat)
  nextSid : Nat
deriving DecidableEq, Repr

/-- state.py `enqueue_url`: `INSERT OR IGNORE INTO pages (url, depth,
inserted_at) VALUES (?, ?, ?)` — a no-op when a row with the same
(UNIQUE) url exists, otherwise a fresh row with the column defaults
`status='queued'`, `attempts=0`. -/
def enqueue_url (s : LedgerState) (url : String) (depth : Nat) (t : Nat) : LedgerState :=
  if s.pages.any (fun r => r.url == url) then s
  else
    { s with
      pages := s.pages ++ [⟨s.nextSid, url, depth, Status.queued, 0, t, none, none⟩],
      nextSid := s.nextSid + 1 }

/-- state.py `mark_attempt`: `UPDATE pages SET attempts = attempts + 1,
last_attempt = ? WHERE url = ?`. -/
def mark_attempt (s : LedgerState) (url : String) (t : Nat) : LedgerState :=
  { s with
    pages := s.pages.map (fun r =>
      if r.url == url then { r with attempts := r.attempts + 1, last_attempt := some t } else r) }

/-- state.py `decrease_attempt`: `UPDATE pages SET attempts = attempts - 1,
last_attempt = ? WHERE url = ?`. -/
def decrease_attempt (s : LedgerState) (url : String) (t : Nat) : LedgerState :=
  { s with
    pages := s.pages.map (fun r =>
      if r.url == url then { r with attempts := r.attempts - 1, last_attempt := some t } else r) }

/-- state.py `mark_success` (the UPDATE statement only; the `commit`
flag is the transaction boundary, modelled in
`update_word_counts_mark_success`): `UPDATE pages SET status = 'visited'
WHERE url = ?`. -/
def mark_success_pages (pages : List PageRow) (url : String) : List PageRow :=
  pages.map (fun r => if r.url == url then { r with status := Status.visited } else r)

/-- state.py `mark_failure`: `UPDATE pages SET status = 'failed',
last_attempt = ?, error = ? WHERE url = ?`. -/
def mark_failure (s : LedgerState) (url : String) (err : String) (t : Nat) : LedgerState :=
  { s with
    pages := s.pages.map (fun r =>
      if r.url == url then { r with status := Status.failed, last_attempt := some t, error := some err } else r) }

/-- One `INSERT INTO words (word, count) VALUES (?, ?) ON CONFLICT(word)
DO UPDATE SET count = count + ?` statement of state.py
`update_word_counts`: additive upsert on the word PRIMARY KEY. -/
def upsert_word (ws : List (String × Nat)) (w : String) (c : Nat) : List (String × Nat) :=
  if ws.any (fun p => p.1 == w) then
    ws.map (fun p => if p.1 == w then (p.1, p.2 + c) else p)
  else ws ++ [(w, c)]

/-- state.py `update_word_counts` run to completion (no failure): the
early return on an empty counter, then one upsert per `(word, count)`
item. -/
def update_word_counts (ws : List (String × Nat)) (wc : List (String × Nat)) : List (String × Nat) :=
  if wc.isEmpty then ws
  else wc.foldl (fun acc p => upsert_word acc p.1 p.2) ws

/-- state.py `update_word_counts` as executed inside the transaction of
`update_word_counts_mark_success`, with a fault model: `failAt = some k`
makes the k-th SQL statement of the transaction raise (a database /
environment error), `failAt = none` is a fault-free run.  `idx` is the
index of the next statement; the result carries the index after the
last executed statement. -/
def update_word_counts_tx (ws : List (String × Nat)) (wc : List (String × Nat))
    (failAt : Option Nat) (idx : Nat) : Except String (List (String × Nat) × Nat) :=
  match wc with
  | [] => Except.ok (ws, idx)
  | p :: rest =>
    if failAt = some idx then Except.error "database error"
    else update_word_counts_tx (upsert_word ws p.1 p.2) rest failAt (idx + 1)

/-- state.py `update_word_counts_mark_success`: runs
`update_word_counts(..., commit=False)` then `mark_success(url,
commit=False)` inside `with self.conn:`, whose sqlite3 semantics commit
the transaction when the block succeeds and roll every statement back
when any exception escapes it.  The boolean records whether the commit
happened; on rollback the observable ledger is the input state. -/
def update_word_counts_mark_success (s : LedgerState) (wc : List (String × Nat))
    (url : String) (failAt : Option Nat) : LedgerState × Bool :=
  match update_word_counts_tx s.words wc failAt 0 with
  | Except.error _ => (s, false)
  | Except.ok (ws', idx) =>
    if failAt = some idx then (s, false)
    else ({ s with words := ws', pages := mark_success_pages s.pages url }, true)

/-- The strict "comes before" relation of the state.py `peek_url` query
`ORDER BY depth, attempts DESC, inserted_at`: depth ascending, then
attempts descending, then inserted_at ascending. -/
def peekBefore (a b : PageRow) : Bool :=
  decide (a.depth < b.depth
    ∨ (a.depth = b.depth ∧ b.attempts < a.attempts)
    ∨ (a.depth = b.depth ∧ a.attempts = b.attempts ∧ a.inserted_at < b.inserted_at))

/-- Accumulator step selecting the first row minimal under `peekBefore`
(what `ORDER BY ... LIMIT 1` returns over the filtered rows). -/
def pickMin (acc : Option PageRow) (r : PageRow) : Option PageRow :=
  match acc with
  | none => some r
  | some m => if peekBefore r m then some r else some m

/-- state.py `peek_url`: `SELECT sid, url, depth, attempts FROM pages
WHERE status = 'queued' ORDER BY depth, attempts DESC, inserted_at
LIMIT 1`, returning the selected columns or none, and — being a SELECT —
the unchanged ledger. -/
def peek_url (s : LedgerState) : Option (Nat × String × Nat × Int) × LedgerState :=
  (((s.pages.filter (fun r => r.status == Status.queued)).foldl pickMin none).map
      (fun r => (r.sid, r.url, r.depth, r.attempts)),
   s)

/-- The row underlying `peek_url` (the query before the column
projection). -/
def peek_row (s : LedgerState) : Option PageRow :=
  (s.pages.filter (fun r => r.status == Status.queued)).foldl pickMin none

/-- utils.py `RETRY_CODES`: HTTP status codes considered transient and
eligible for retries. -/
def RETRY_CODES : List Nat := [429, 500, 502, 503, 504]

/-- Python `str.split(sep)` for a one-character separator, on the
character list (`''.split(';') == ['']`, so the empty list maps to one
empty field). -/
def splitOnChar (sep : Char) : List Char → List (List Char)
  | [] => [[]]
  | c :: cs =>
    let r := splitOnChar sep cs
    if c = sep then [] :: r
    else
      match r with
      | [] => [[c]]
      | h :: tl => (c :: h) :: tl

/-- Python `str.strip()`: drop whitespace from both ends. -/
def stripChars (l : List Char) : List Char :=
  ((l.dropWhile Char.isWhitespace).reverse.dropWhile Char.isWhitespace).reverse

/-- Python `str.lower()` (ASCII model). -/
def lowerChars (l : List Char) : List Char :=
  l.map Char.toLower

/-- The media type of a Content-Type header as normalized by crawler.py
`fetch_url` line 141: `content_type.lower().split(';')[0].strip()`. -/
def mediaTypeOf (ct : String) : String :=
  String.mk (stripChars ((splitOnChar ';' (lowerChars ct.data)).headD []))

/-- Outcome of one `utils.http_get` call, as seen by `fetch_url`:
either a network-level error (`requests.Timeout` /
`requests.ConnectionError`) or a response with a status code, an
optional Content-Type header, an optional integer Retry-After header
and a decoded body (`response.text`). -/
inductive HttpOutcome where
  | netError
  | response (status : Nat) (contentType : Option String) (retryAfter : Option Nat) (body : String)
deriving DecidableEq, Repr

/-- Classification of a response by the `fetch_url` body, crawler.py
lines 136-149: the 200 branch with its body / Content-Type checks, the
`RETRY_CODES` branch raising `RetryableError`, and the final
`PageException` branch. -/
inductive RespClass where
  | ok (mediaType body : String)
  | retry
  | fault (msg : String)
deriving DecidableEq, Repr

/-- crawler.py `fetch_url` lines 136-149 applied to one response. -/
def classify_response (status : Nat) (contentType : Option String) (body : String) : RespClass :=
  if status = 200 then
    if body = "" then RespClass.fault "Reading error, response.text is None"
    else
      match contentType with
      | none => RespClass.fault "Reading error, response.headers Content-Type not set"
      | some ct =>
        let mt := mediaTypeOf ct
        if mt = "text/html" ∨ mt = "text/plain" then RespClass.ok mt body
        else RespClass.fault ("Reading error, Content-Type " ++ mt ++ " not supported")
  else if status ∈ RETRY_CODES then RespClass.retry
  else RespClass.fault ("Non-Retryable HTTP error [" ++ toString status ++ "]")

/-- Observable outcome of one `fetch_url` call: the returned
`(content_type, body)` or the raised `PageException` message, the
ledger after the call, the number of `mark_attempt` calls made (each
loop iteration performs exactly one, immediately before its single
`http_get` call), and the list of `time.sleep` durations in order. -/
structure FetchRes where
  result : Except String (String × String)
  state : LedgerState
  nAttempts : Nat
  sleeps : List Nat
deriving Repr

/-- The `for attempt in range(attempts+1, max_attempts+1)` loop of
crawler.py `fetch_url` (lines 127-159), over the remaining list of
loop indices.  Each iteration computes `next_wait = base_delay *
2 ** attempt`, records `mark_attempt`, performs one HTTP call (the
oracle at the current index) and then:
* success: returns the normalized content type and body;
* `RetryableError` (a `RETRY_CODES` status): `next_wait` is replaced by
  the Retry-After header when present, and if `attempt < max_attempts`
  the loop sleeps `next_wait` and continues, else it raises
  `PageException("Max attempts reached")`;
* network `Timeout`/`ConnectionError`: same, with `next_wait` left at
  the exponential value;
* any other fault: raises `PageException` immediately.
When the index list is exhausted, line 159 raises
`PageException("Max attempts reached")`. -/
def fetch_iters (oracle : Nat → HttpOutcome) (url : String) (t : Nat)
    (maxAttempts baseDelay : Nat) : List Nat → LedgerState → FetchRes
  | [], s => ⟨Except.error "Max attempts reached", s, 0, []⟩
  | attempt :: rest, s =>
    let s1 := mark_attempt s url t
    let expWait := baseDelay * 2 ^ attempt
    match oracle attempt with
    | HttpOutcome.netError =>
      if attempt < maxAttempts then
        let r := fetch_iters oracle url t maxAttempts baseDelay rest s1
        ⟨r.result, r.state, r.nAttempts + 1, expWait :: r.sleeps⟩
      else ⟨Except.error "Max attempts reached", s1, 1, []⟩
    | HttpOutcome.response status ct ra body =>
      match classify_response status ct body with
      | RespClass.ok mt b => ⟨Except.ok (mt, b), s1, 1, []⟩
      | RespClass.retry =>
        let wait := ra.getD expWait
        if attempt < maxAttempts then
          let r := fetch_iters oracle url t maxAttempts baseDelay rest s1
          ⟨r.result, r.state, r.nAttempts + 1, wait :: r.sleeps⟩
        else ⟨Except.error "Max attempts reached", s1, 1, []⟩
      | RespClass.fault msg => ⟨Except.error msg, s1, 1, []⟩

/-- crawler.py `fetch_url(state, id, url, depth, attempts,
max_attempts=2, base_delay=1)`: the retry loop over the indices
`range(attempts + 1, max_attempts + 1)` where `prior` is the page's
recorded attempt count (`List.range' a n` is `[a, a+1, ..., a+n-1]`,
so this list is exactly `prior+1 .. maxAttempts`). -/
def fetch_url (oracle : Nat → HttpOutcome) (url : String) (t : Nat)
    (prior maxAttempts baseDelay : Nat) (s : LedgerState) : FetchRes :=
  fetch_iters oracle url t maxAttempts baseDelay
    (List.range' (prior + 1) (maxAttempts - prior)) s

/-- The call site crawler.py line 225, `fetch_url(state, id, url,
depth, attempts)` inside `crawler_loop`: `max_attempts` and
`base_delay` are not passed, so the Python defaults `max_attempts=2`,
`base_delay=1` apply; `cfg.MAX_ATTEMPTS` (the `-a` option) does not
reach the retry controller. -/
def crawler_loop_fetch (oracle : Nat → HttpOutcome) (url : String) (t : Nat)
    (prior : Nat) (s : LedgerState) : FetchRes :=
  fetch_url oracle url t prior 2 1 s

/-- A regex word character of the `\b\w+\b` pattern of word_counter.py
`count_words`: alphanumerics plus underscore (ASCII model of `\w`). -/
def isWordChar (c : Char) : Bool :=
  c.isAlphanum || c == '_'

/-- The maximal runs of word characters of a character list, in order:
what `re.findall(r'\b\w+\b', ...)` yields.  `acc` holds the reversed
current run. -/
def wordRunsAux : List Char → List Char → List (List Char)
  | [], acc => if acc.isEmpty then [] else [acc.reverse]
  | c :: cs, acc =>
    if isWordChar c then wordRunsAux cs (c :: acc)
    else if acc.isEmpty then wordRunsAux cs []
    else acc.reverse :: wordRunsAux cs []

/-- Tokenization of word_counter.py `count_words`: the maximal word
character runs of the text. -/
def tokenize (text : String) : List String :=
  (wordRunsAux text.toList []).map (fun cs => String.mk cs)

/-- One increment of a `collections.Counter`: add 1 to the word's count,
inserting it at count 1 when absent. -/
def tallyWord (m : List (String × Nat)) (w : String) : List (String × Nat) :=
  if m.any (fun p => p.1 == w) then
    m.map (fun p => if p.1 == w then (p.1, p.2 + 1) else p)
  else m ++ [(w, 1)]

/-- `Counter(words)` of word_counter.py `count_words`: tally the token
list into a word → count mapping. -/
def tally (ws : List String) : List (String × Nat) :=
  ws.foldl tallyWord []

/-- word_counter.py `count_words`: `if text and len(text) > 0:` lowercase,
tokenize by `\b\w+\b` and return the Counter; for falsy text the
function body falls through and Python returns `None`, modelled as
`none`. -/
def count_words (text : String) : Option (List (String × Nat)) :=
  if text ≠ "" then some (tally (tokenize (String.mk (lowerChars text.data)))) else none

/-- utils.py `simulated_probability`: the random draw when
`cfg.INJECT_ERRORS` is set, the constant 1 otherwise. -/
def simulated_probability (injectErrors : Bool) (draw : ℚ) : ℚ :=
  if injectErrors then draw else 1

/-- The three entry paths of utils.py `http_get`: a simulated
ConnectionError/Timeout, a simulated response with a random status, or
the real `requests.get` call. -/
inductive HttpGetPath where
  | simNetError
  | simStatus
  | real
deriving DecidableEq, Repr

/-- The error-injection gates of utils.py `http_get` (lines 63-77):
which path the call takes, given the flag and the two draws. -/
def http_get_path (injectErrors : Bool) (draw1 draw2 : ℚ) : HttpGetPath :=
  if simulated_probability injectErrors draw1 < 5/100 then HttpGetPath.simNetError
  else if simulated_probability injectErrors draw2 < 10/100 then HttpGetPath.simStatus
  else HttpGetPath.real

/-- The error-injection gate of utils.py `file_write` (line 104):
whether the simulated I/O error is raised. -/
def file_write_fails (injectErrors : Bool) (draw : ℚ) : Bool :=
  decide (simulated_probability injectErrors draw < 1/100000)

/-- The `netloc` of Python `urlparse` restricted to the hrefs reaching
it in `is_valid_link` (no `:`, hence no scheme, userinfo or port): the
part after a leading `//` up to the next `/`, `?` or `#`; empty
otherwise. -/
def parseNetloc (href : List Char) : List Char :=
  if ['/', '/'].isPrefixOf href then
    (href.drop 2).takeWhile (fun c => !(c == '/') && !(c == '?') && !(c == '#'))
  else []

/-- The `path` of Python `urlparse` under the same restriction: the
remainder after the netloc, truncated at `?` or `#`. -/
def parsePath (href : List Char) : List Char :=
  let rest :=
    if ['/', '/'].isPrefixOf href then
      (href.drop 2).dropWhile (fun c => !(c == '/') && !(c == '?') && !(c == '#'))
    else href
  rest.takeWhile (fun c => !(c == '?') && !(c == '#'))

/-- crawler.py `is_valid_link(href)`: reject empty or `:`-containing
hrefs; reject a non-empty netloc not ending with `cfg.DOMAIN`; accept
hrefs ending (case-insensitively) with `.html`, `.htm`, `.txt` or `/`;
otherwise accept exactly when the last path segment has no `.`. -/
def is_valid_link (domain : String) (href : String) : Bool :=
  if href = "" || href.data.contains ':' then false
  else
    let netloc := parseNetloc href.data
    let path := parsePath href.data
    if !netloc.isEmpty && !(domain.data.isSuffixOf netloc) then false
    else
      let lower := lowerChars href.data
      if ".html".data.isSuffixOf lower || ".htm".data.isSuffixOf lower
          || ".txt".data.isSuffixOf lower || "/".data.isSuffixOf lower then true
      else !((splitOnChar '/' path).getLastD []).contains '.'

/-- Python `rstrip('/')`: drop trailing `/` characters. -/
def rstripSlash (l : List Char) : List Char :=
  (l.reverse.dropWhile (fun c => c == '/')).reverse

/-- crawler.py `extract_links` line 92 normalization of one accepted
href: `urljoin(url, href).split('#')[0].rstrip('/')` (`urljoin` is the
external standard-library resolver, passed as a parameter). -/
def normalize_link (urljoin : String → String → String) (url href : String) : String :=
  String.mk (rstripSlash ((splitOnChar '#' (urljoin url href).data).headD []))

/-- crawler.py `extract_links(state, url, type, body, depth)` as the
list of `(full_url, depth + 1)` enqueue calls it performs, or the
`PageException` it raises.  `draw` is the `random.random()` draw of
line 84 — note: taken directly, NOT through
`utils.simulated_probability`, so the 5% simulated parse failure fires
regardless of `cfg.INJECT_ERRORS`.  `hrefs` is the list of anchor
`href` attributes BeautifulSoup finds in the body; the guard of line 87
(`body and type == 'text/html' and depth < cfg.MAX_DEPTH`) otherwise
yields no enqueues. -/
def extract_links (urljoin : String → String → String) (hrefs : List String)
    (draw : ℚ) (maxDepth : Nat) (domain prodomain : String)
    (url typ body : String) (depth : Nat) : Except String (List (String × Nat)) :=
  if draw < 5/100 then Except.error "simulated page parsing error"
  else if body ≠ "" ∧ typ = "text/html" ∧ depth < maxDepth then
    Except.ok ((hrefs.filter (is_valid_link domain)).filterMap (fun href =>
      let full := normalize_link urljoin url href
      if prodomain.data.isPrefixOf full.data then some (full, depth + 1) else none))
  else Except.ok []

/-- Folding the enqueue calls of `extract_links` into the ledger, each
with its timestamp. -/
def apply_enqueues (s : LedgerState) (links : List (String × Nat)) (t : Nat) : LedgerState :=
  links.foldl (fun acc l => enqueue_url acc l.1 l.2 t) s

/-! Theorems settling the claims. -/

lemma update_word_counts_eq_foldl (ws wc : List (String × Nat)) :
    update_word_counts ws wc = wc.foldl (fun acc p => upsert_word acc p.1 p.2) ws := by
  cases wc <;> simp [update_word_counts]

lemma update_word_counts_tx_ok (wc : List (String × Nat)) :
    ∀ (ws : List (String × Nat)) (failAt : Option Nat) (idx : Nat)
      (ws' : List (String × Nat)) (idx' : Nat),
      update_word_counts_tx ws wc failAt idx = Except.ok (ws', idx') →
      ws' = wc.foldl (fun acc p => upsert_word acc p.1 p.2) ws := by
  induction wc with
  | nil =>
    intro ws failAt idx ws' idx' h
    simp only [update_word_counts_tx, Except.ok.injEq, Prod.mk.injEq] at h
    simp [h.1]
  | cons p rest ih =>
    intro ws failAt idx ws' idx' h
    simp only [update_word_counts_tx] at h
    split at h
    · exact absurd h (by simp)
    · simpa using ih _ _ _ _ _ h

/-- C1: `update_word_counts_mark_success` is atomic — for every ledger
state, word-count mapping, url and fault point, it either commits both
the additive merge of the counts into the global `words` table and the
`status='visited'` update of the page row, or (when any statement of
the transaction fails) commits nothing and leaves the ledger unchanged. -/
theorem commit_success_atomic (s : LedgerState) (wc : List (String × Nat))
    (url : String) (failAt : Option Nat) :
    update_word_counts_mark_success s wc url failAt =
      (⟨mark_success_pages s.pages url, update_word_counts s.words wc, s.nextSid⟩, true) ∨
    update_word_counts_mark_success s wc url failAt = (s, false) := by
  unfold update_word_counts_mark_success
  cases h : update_word_counts_tx s.words wc failAt 0 with
  | error e => exact Or.inr rfl
  | ok p =>
    obtain ⟨ws', idx⟩ := p
    by_cases hf : failAt = some idx
    · exact Or.inr (by simp [hf])
    · left
      have hws := update_word_counts_tx_ok wc s.words failAt 0 ws' idx h
      simp only [hf, if_neg]
      rw [hws, ← update_word_counts_eq_foldl]
      simp

/-- C2 (code bug): `crawler_loop` (crawler.py line 225) calls
`fetch_url` without passing `cfg.MAX_ATTEMPTS`, so the ceiling is the
hard-coded Python default `max_attempts=2` whatever the `-a` option
configured.  Evaluated at the failing input — configuration `-a 1`
(MAX_ATTEMPTS = 1), one queued URL with no prior attempts and two
transient network faults — the crawler records 2 attempts, more than
the configured ceiling 1. -/
theorem cli_max_attempts_not_wired :
    (crawler_loop_fetch (fun _ => HttpOutcome.netError) "https://s" 0 0
        ⟨[⟨1, "https://s", 0, Status.queued, 0, 0, none, none⟩], [], 2⟩).nAttempts = 2 ∧
    1 < (crawler_loop_fetch (fun _ => HttpOutcome.netError) "https://s" 0 0
        ⟨[⟨1, "https://s", 0, Status.queued, 0, 0, none, none⟩], [], 2⟩).nAttempts := by
  exact ⟨rfl, by decide⟩

/-- C3 counterexample: the claim predicts a sleep of
`max(Retry-After, base * 2 ^ ordinal)` — at ordinal 2 with base 1 and
`Retry-After: 0` that is 4 seconds — but the code assigns
`next_wait = int(response.headers.get("Retry-After", next_wait))`,
REPLACING the exponential value, so it sleeps 0 seconds. -/
theorem retry_after_replaces_backoff_counterexample :
    (fetch_url (fun _ => HttpOutcome.response 503 none (some 0) "") "https://s" 0 1 3 1
        ⟨[⟨1, "https://s", 0, Status.queued, 1, 0, none, none⟩], [], 2⟩).sleeps = [0] ∧
    max 0 (1 * 2 ^ 2) = 4 ∧ (0 : Nat) ≠ max 0 (1 * 2 ^ 2) := by
  exact ⟨rfl, rfl, by decide⟩

/-- C3 amended: on a transient HTTP fault at loop index `attempt` with
`attempt < max_attempts`, the controller sleeps the served Retry-After
value when the header is present — even when smaller than the backoff —
and `base * 2 ^ attempt` otherwise, then loops on the remaining
attempt indices. -/
theorem retry_wait_is_retry_after_or_backoff (oracle : Nat → HttpOutcome) (url : String)
    (t maxAttempts baseDelay attempt : Nat) (rest : List Nat) (s : LedgerState)
    (status : Nat) (ct : Option String) (ra : Option Nat) (body : String)
    (hor : oracle attempt = HttpOutcome.response status ct ra body)
    (hcl : classify_response status ct body = RespClass.retry)
    (hlt : attempt < maxAttempts) :
    (fetch_iters oracle url t maxAttempts baseDelay (attempt :: rest) s).sleeps =
      ra.getD (baseDelay * 2 ^ attempt) ::
        (fetch_iters oracle url t maxAttempts baseDelay rest (mark_attempt s url t)).sleeps := by
  simp [fetch_iters, hor, hcl, hlt]

/-- C3 amended witness: a 503 with `Retry-After: 0` at index 2 against
ceiling 3 sleeps exactly 0 seconds before the next attempt. -/
theorem retry_wait_is_retry_after_or_backoff_witness :
    (fetch_iters (fun _ => HttpOutcome.response 503 none (some 0) "") "https://s" 0 3 1
        [2, 3] ⟨[], [], 1⟩).sleeps =
      (some 0).getD (1 * 2 ^ 2) ::
        (fetch_iters (fun _ => HttpOutcome.response 503 none (some 0) "") "https://s" 0 3 1
          [3] (mark_attempt ⟨[], [], 1⟩ "https://s" 0)).sleeps :=
  retry_wait_is_retry_after_or_backoff _ "https://s" 0 3 1 2 [3] _ 503 none (some 0) ""
    rfl (by decide) (by decide)

/-- C4: the fetcher classification is the exact trichotomy of the
claim — a success (carrying the normalized media type and the body)
exactly when the status is 200, the body is non-empty and the
Content-Type's media type (before any `;`, case-normalized) is
`text/html` or `text/plain`; a retriable fault exactly on the statuses
of `RETRY_CODES`; a permanent fault exactly otherwise. -/
theorem classify_response_trichotomy (status : Nat) (ct : Option String) (body : String) :
    ((∃ mt b, classify_response status ct body = RespClass.ok mt b) ↔
      (status = 200 ∧ body ≠ "" ∧ ∃ c, ct = some c ∧
        (mediaTypeOf c = "text/html" ∨ mediaTypeOf c = "text/plain"))) ∧
    (classify_response status ct body = RespClass.retry ↔ status ∈ RETRY_CODES) ∧
    ((∃ msg, classify_response status ct body = RespClass.fault msg) ↔
      (¬(status = 200 ∧ body ≠ "" ∧ ∃ c, ct = some c ∧
          (mediaTypeOf c = "text/html" ∨ mediaTypeOf c = "text/plain")) ∧
        status ∉ RETRY_CODES)) ∧
    (∀ mt b, classify_response status ct body = RespClass.ok mt b →
      b = body ∧ ∃ c, ct = some c ∧ mt = mediaTypeOf c) := by
  unfold classify_response
  by_cases h200 : status = 200
  · subst h200
    by_cases hb : body = ""
    · subst hb
      simp [RETRY_CODES]
    · cases ct with
      | none => simp [hb, RETRY_CODES]
      | some c =>
        by_cases hmt : mediaTypeOf c = "text/html" ∨ mediaTypeOf c = "text/plain"
        · simp [hb, hmt, RETRY_CODES]
        · simp [hb, hmt, RETRY_CODES]
  · by_cases hr : status ∈ RETRY_CODES
    · simp [h200, hr]
    · simp [h200, hr]

/-- C4 witness: the trichotomy applied at a 200 response with an
upper-case parameterized HTML Content-Type and non-empty body yields a
success. -/
theorem classify_response_trichotomy_witness :
    ∃ mt b, classify_response 200 (some "TEXT/HTML; charset=utf-8") "x" = RespClass.ok mt b :=
  (classify_response_trichotomy 200 (some "TEXT/HTML; charset=utf-8") "x").1.mpr
    ⟨rfl, by decide, "TEXT/HTML; charset=utf-8", rfl, Or.inl (by decide)⟩

/-- C7 (code bug): with error injection disabled the gated utils.py
paths never simulate — `http_get` always takes the real-request path
and `file_write` never raises the simulated I/O error, for every random
draw — but crawler.py `extract_links` draws `random.random()` directly
(line 84), bypassing `simulated_probability`, so a draw of 1/100 still
raises the synthetic parse failure with the flag off. -/
theorem injection_gate_bypassed_in_extract_links :
    (∀ d1 d2 d3 : ℚ, http_get_path false d1 d2 = HttpGetPath.real ∧
      file_write_fails false d3 = false) ∧
    extract_links (fun _ href => href) ["a.html"] (1/100) 1 "example.com"
      "https://example.com" "https://example.com" "text/html" "<html></html>" 0 =
      Except.error "simulated page parsing error" := by
  refine ⟨fun d1 d2 d3 => ⟨?_, ?_⟩, ?_⟩
  · simp only [http_get_path, simulated_probability, if_false]
    norm_num
  · simp only [file_write_fails, simulated_probability, if_false]
    norm_num
  · simp only [extract_links]
    norm_num

lemma enqueue_url_depth_bound (s : LedgerState) (url : String) (depth t maxDepth : Nat)
    (hs : ∀ r ∈ s.pages, r.depth ≤ maxDepth) (hd : depth ≤ maxDepth) :
    ∀ r ∈ (enqueue_url s url depth t).pages, r.depth ≤ maxDepth := by
  intro r hr
  unfold enqueue_url at hr
  split at hr
  · exact hs r hr
  · simp only [List.mem_append, List.mem_singleton] at hr
    rcases hr with hr | rfl
    · exact hs r hr
    · exact hd

lemma apply_enqueues_depth_bound (links : List (String × Nat)) :
    ∀ (s : LedgerState) (t maxDepth : Nat),
      (∀ r ∈ s.pages, r.depth ≤ maxDepth) → (∀ p ∈ links, p.2 ≤ maxDepth) →
      ∀ r ∈ (apply_enqueues s links t).pages, r.depth ≤ maxDepth := by
  induction links with
  | nil => intro s t maxDepth hs _ r hr; exact hs r hr
  | cons l ls ih =>
    intro s t maxDepth hs hl r hr
    have h1 : ∀ r ∈ (enqueue_url s l.1 l.2 t).pages, r.depth ≤ maxDepth :=
      enqueue_url_depth_bound s l.1 l.2 t maxDepth hs (hl l (List.mem_cons_self l ls))
    exact ih (enqueue_url s l.1 l.2 t) t maxDepth h1
      (fun p hp => hl p (List.mem_cons_of_mem l hp)) r hr

lemma peekBefore_irrefl (a : PageRow) : peekBefore a a = false := by
  simp [peekBefore]

lemma peekBefore_trans (a b c : PageRow) (h1 : peekBefore a b = true)
    (h2 : peekBefore b c = true) : peekBefore a c = true := by
  simp only [peekBefore, decide_eq_true_eq] at h1 h2 ⊢
  omega

lemma peekBefore_resolve (r a m : PageRow) (h1 : peekBefore r m = true)
    (h2 : peekBefore a m = false) (h3 : peekBefore r a = false) : False := by
  simp only [peekBefore, decide_eq_true_eq, decide_eq_false_iff_not] at h1 h2 h3
  omega

lemma foldl_pickMin_min : ∀ (l : List PageRow) (a : PageRow),
    ∃ m, List.foldl pickMin (some a) l = some m ∧ (m = a ∨ m ∈ l) ∧
      ∀ x, (x = a ∨ x ∈ l) → peekBefore x m = false := by
  intro l
  induction l with
  | nil =>
    intro a
    refine ⟨a, rfl, Or.inl rfl, ?_⟩
    rintro x (rfl | hx)
    · exact peekBefore_irrefl x
    · cases hx
  | cons r rs ih =>
    intro a
    by_cases h : peekBefore r a = true
    · obtain ⟨m, hm, hmem, hmin⟩ := ih r
      have hstep : List.foldl pickMin (some a) (r :: rs) = List.foldl pickMin (some r) rs := by
        simp [pickMin, h]
      refine ⟨m, hstep ▸ hm, ?_, ?_⟩
      · rcases hmem with rfl | hm2
        · exact Or.inr (List.mem_cons_self m rs)
        · exact Or.inr (List.mem_cons_of_mem r hm2)
      · rintro x (rfl | hx)
        · by_contra hax
          rw [Bool.not_eq_false] at hax
          have hr2 : peekBefore r m = false := hmin r (Or.inl rfl)
          rw [peekBefore_trans r x m h hax] at hr2
          cases hr2
        · rcases List.mem_cons.mp hx with rfl | hx2
          · exact hmin x (Or.inl rfl)
          · exact hmin x (Or.inr hx2)
    · rw [Bool.not_eq_true] at h
      obtain ⟨m, hm, hmem, hmin⟩ := ih a
      have hstep : List.foldl pickMin (some a) (r :: rs) = List.foldl pickMin (some a) rs := by
        simp [pickMin, h]
      refine ⟨m, hstep ▸ hm, ?_, ?_⟩
      · rcases hmem with rfl | hm2
        · exact Or.inl rfl
        · exact Or.inr (List.mem_cons_of_mem r hm2)
      · rintro x (rfl | hx)
        · exact hmin x (Or.inl rfl)
        · rcases List.mem_cons.mp hx with rfl | hx2
          · by_contra hrm
            rw [Bool.not_eq_false] at hrm
            exact peekBefore_resolve x a m hrm (hmin a (Or.inl rfl)) h
          · exact hmin x (Or.inr hx2)

lemma peek_url_fst (s : LedgerState) :
    (peek_url s).1 = (peek_row s).map (fun r => (r.sid, r.url, r.depth, r.attempts)) := rfl

/-- C5: when the ledger holds at least one queued page, `peek_url`
returns the columns of a queued row minimal under the order (depth
ascending, then attempts descending, then inserted_at ascending) among
all queued rows and leaves the ledger unchanged; when no row is queued
it returns none. -/
theorem peek_url_minimal (s : LedgerState) :
    (peek_url s).2 = s ∧
    ((∀ r ∈ s.pages, r.status ≠ Status.queued) → (peek_url s).1 = none) ∧
    (∀ r0 ∈ s.pages, r0.status = Status.queued →
      ∃ m, peek_row s = some m ∧ m ∈ s.pages ∧ m.status = Status.queued ∧
        (peek_url s).1 = some (m.sid, m.url, m.depth, m.attempts) ∧
        ∀ r ∈ s.pages, r.status = Status.queued → peekBefore r m = false) := by
  refine ⟨rfl, ?_, ?_⟩
  · intro hnone
    have hfilter : s.pages.filter (fun r => r.status == Status.queued) = [] := by
      rw [List.filter_eq_nil_iff]
      intro r hr
      simpa using hnone r hr
    simp [peek_url, hfilter]
  · intro r0 hr0 hq0
    have hr0f : r0 ∈ s.pages.filter (fun r => r.status == Status.queued) := by
      rw [List.mem_filter]
      exact ⟨hr0, by simp [hq0]⟩
    cases hfl : s.pages.filter (fun r => r.status == Status.queued) with
    | nil => rw [hfl] at hr0f; cases hr0f
    | cons x xs =>
      obtain ⟨m, hm, hmem, hmin⟩ := foldl_pickMin_min xs x
      have hmx : m ∈ x :: xs := by
        rcases hmem with rfl | h2
        · exact List.mem_cons_self m xs
        · exact List.mem_cons_of_mem x h2
      have hmf : m ∈ s.pages.filter (fun r => r.status == Status.queued) := by
        rw [hfl]; exact hmx
      have hmpages := (List.mem_filter.mp hmf).1
      have hmq : m.status = Status.queued := by simpa using (List.mem_filter.mp hmf).2
      have hpeek : peek_row s = some m := by
        unfold peek_row
        rw [hfl]
        exact hm
      refine ⟨m, hpeek, hmpages, hmq, ?_, ?_⟩
      · rw [peek_url_fst, hpeek]
        rfl
      · intro r hr hq
        have hrl : r ∈ x :: xs := by
          rw [← hfl, List.mem_filter]
          exact ⟨hr, by simp [hq]⟩
        rcases List.mem_cons.mp hrl with rfl | h2
        · exact hmin r (Or.inl rfl)
        · exact hmin r (Or.inr h2)

/-- C5 witness: the minimality theorem applied to a concrete ledger of
three queued rows, one shallower than the others. -/
theorem peek_url_minimal_witness :
    ∃ m, peek_row ⟨[⟨1, "https://s/a", 1, Status.queued, 0, 5, none, none⟩,
        ⟨2, "https://s/b", 0, Status.queued, 0, 9, none, none⟩,
        ⟨3, "https://s/c", 0, Status.queued, 2, 10, none, none⟩], [], 4⟩ = some m ∧
      m ∈ [⟨1, "https://s/a", 1, Status.queued, 0, 5, none, none⟩,
        (⟨2, "https://s/b", 0, Status.queued, 0, 9, none, none⟩ : PageRow),
        ⟨3, "https://s/c", 0, Status.queued, 2, 10, none, none⟩] ∧
      m.status = Status.queued ∧
      (peek_url ⟨[⟨1, "https://s/a", 1, Status.queued, 0, 5, none, none⟩,
        ⟨2, "https://s/b", 0, Status.queued, 0, 9, none, none⟩,
        ⟨3, "https://s/c", 0, Status.queued, 2, 10, none, none⟩], [], 4⟩).1 =
        some (m.sid, m.url, m.depth, m.attempts) ∧
      ∀ r ∈ [⟨1, "https://s/a", 1, Status.queued, 0, 5, none, none⟩,
        (⟨2, "https://s/b", 0, Status.queued, 0, 9, none, none⟩ : PageRow),
        ⟨3, "https://s/c", 0, Status.queued, 2, 10, none, none⟩],
        r.status = Status.queued → peekBefore r m = false :=
  (peek_url_minimal _).2.2 ⟨1, "https://s/a", 1, Status.queued, 0, 5, none, none⟩
    (List.mem_cons_self _ _) rfl

/-- C6: every link the extractor enqueues is at depth exactly one more
than its parent and at most MAX_DEPTH; a page already at or beyond
MAX_DEPTH contributes no enqueues; consequently applying the enqueues
to a ledger whose page rows all satisfy the depth bound preserves the
bound. -/
theorem extract_links_depth_bound (urljoin : String → String → String) (hrefs : List String)
    (draw : ℚ) (maxDepth : Nat) (domain prodomain url typ body : String) (depth : Nat)
    (links : List (String × Nat))
    (h : extract_links urljoin hrefs draw maxDepth domain prodomain url typ body depth =
      Except.ok links) :
    (∀ p ∈ links, p.2 = depth + 1 ∧ p.2 ≤ maxDepth) ∧
    (maxDepth ≤ depth → links = []) ∧
    (∀ (s : LedgerState) (t : Nat), (∀ r ∈ s.pages, r.depth ≤ maxDepth) →
      ∀ r ∈ (apply_enqueues s links t).pages, r.depth ≤ maxDepth) := by
  unfold extract_links at h
  split at h
  · exact absurd h (by simp)
  · split at h
    case isTrue hg =>
      obtain ⟨hbody, htyp, hdepth⟩ := hg
      injection h with h
      subst h
      have hmem : ∀ p ∈ (hrefs.filter (is_valid_link domain)).filterMap (fun href =>
          let full := normalize_link urljoin url href
          if prodomain.data.isPrefixOf full.data then some (full, depth + 1) else none),
          p.2 = depth + 1 ∧ p.2 ≤ maxDepth := by
        intro p hp
        simp only [List.mem_filterMap] at hp
        obtain ⟨href, _, hf⟩ := hp
        split at hf
        · cases hf
          exact ⟨rfl, by omega⟩
        · cases hf
      refine ⟨hmem, fun hle => absurd hdepth (by omega), ?_⟩
      intro s t hs
      exact apply_enqueues_depth_bound _ s t maxDepth hs (fun p hp => (hmem p hp).2)
    case isFalse hg =>
      injection h with h
      subst h
      refine ⟨by simp, fun _ => rfl, ?_⟩
      intro s t hs
      exact apply_enqueues_depth_bound [] s t maxDepth hs (by simp)

/-- C6 witness: the depth-bound theorem applied to a concrete page at
depth 0 with MAX_DEPTH 1 and one valid link, which is enqueued at
depth 1. -/
theorem extract_links_depth_bound_witness :
    ("https://d/a.html", 1).2 = 0 + 1 ∧ ("https://d/a.html", 1).2 ≤ 1 :=
  (extract_links_depth_bound (fun u h => u ++ "/" ++ h) ["a.html"] (1/2) 1 "d" "https://d"
    "https://d" "text/html" "<x>" 0 [("https://d/a.html", 1)]
    (by norm_num [extract_links]; rfl)).1 ("https://d/a.html", 1) (List.mem_cons_self _ _)

/-- C8 (code bug): `count_words` applied to the empty string returns
`None` (the `if text and len(text) > 0` guard skips the whole body),
not the empty mapping its docstring and the spec promise. -/
theorem count_words_empty_is_none :
    count_words "" = none ∧ count_words "" ≠ some [] := by
  constructor <;> simp [count_words]

/-- C9: `enqueue_url` is idempotent — enqueueing the same URL twice (at
any timestamps) equals enqueueing it once, and when a page row with
that URL already exists the call leaves the ledger completely
unchanged (depth, status, attempts and inserted_at included). -/
theorem enqueue_url_idempotent (s : LedgerState) (url : String) (depth t1 t2 : Nat) :
    enqueue_url (enqueue_url s url depth t1) url depth t2 = enqueue_url s url depth t1 ∧
    (s.pages.any (fun r => r.url == url) = true → enqueue_url s url depth t1 = s) := by
  refine ⟨?_, fun h => by simp [enqueue_url, h]⟩
  by_cases h : s.pages.any (fun r => r.url == url) = true
  · simp [enqueue_url, h]
  · simp [enqueue_url, h]

/-- C9 witness: the idempotence theorem applied to a concrete ledger
holding the URL already, discharging the presence hypothesis. -/
theorem enqueue_url_idempotent_witness :
    enqueue_url (enqueue_url ⟨[⟨1, "https://s/a", 0, Status.queued, 0, 0, none, none⟩], [], 2⟩
        "https://s/a" 0 5) "https://s/a" 0 6 =
      enqueue_url ⟨[⟨1, "https://s/a", 0, Status.queued, 0, 0, none, none⟩], [], 2⟩ "https://s/a" 0 5 ∧
    enqueue_url ⟨[⟨1, "https://s/a", 0, Status.queued, 0, 0, none, none⟩], [], 2⟩ "https://s/a" 0 5 =
      ⟨[⟨1, "https://s/a", 0, Status.queued, 0, 0, none, none⟩], [], 2⟩ :=
  ⟨(enqueue_url_idempotent _ "https://s/a" 0 5 6).1,
   (enqueue_url_idempotent _ "https://s/a" 0 5 6).2 (by rfl)⟩

/-- C10: when the prior attempt count already reaches `max_attempts`,
the `fetch_url` attempt loop body never executes — the call raises
`PageException("Max attempts reached")` immediately, records no
attempt, sleeps never, and leaves the ledger unchanged. -/
theorem fetch_url_prior_exhausted (oracle : Nat → HttpOutcome) (url : String)
    (t prior maxAttempts baseDelay : Nat) (s : LedgerState)
    (h : maxAttempts ≤ prior) :
    fetch_url oracle url t prior maxAttempts baseDelay s =
      ⟨Except.error "Max attempts reached", s, 0, []⟩ := by
  unfold fetch_url
  have hz : maxAttempts - prior = 0 := by omega
  rw [hz]
  rfl

/-- C10 witness: the theorem at prior = 3 against ceiling 2. -/
theorem fetch_url_prior_exhausted_witness :
    fetch_url (fun _ => HttpOutcome.netError) "https://s" 0 3 2 1
        ⟨[⟨1, "https://s", 0, Status.queued, 3, 0, none, none⟩], [], 2⟩ =
      ⟨Except.error "Max attempts reached",
       ⟨[⟨1, "https://s", 0, Status.queued, 3, 0, none, none⟩], [], 2⟩, 0, []⟩ :=
  fetch_url_prior_exhausted _ "https://s" 0 3 2 1 _ (by decide)

end WebCrawler
